import Mathlib

set_option linter.unusedVariables false
set_option linter.unnecessarySeqFocus false

/-!
Shallow embedding of the lapki-serial-monitor repository (Go sources
src/serial-monitor.go and src/unnamed/part_000) together with proofs
about its framing, routing, broadcasting, connection-management and
outbound-writing logic.

Bytes are modelled as natural numbers (the value of the Go byte),
strings delivered to clients as Lean strings, and the mutable global
state of the Go program as explicit state records threaded through the
translated functions.  Concurrency is modelled by running one step of a
goroutine loop at a time; channel sends become events in an emitted
event list, in program order.
-/

namespace SerialMonitor

/-! Section 1: UTF-8 validity, translated from Go package unicode/utf8
(function utf8.Valid), which part_000 readFromSerial applies to every
chunk read from the device.  A byte sequence is valid when it is a
concatenation of correctly encoded runes per RFC 3629: no surrogates,
no overlong encodings, code points at most U+10FFFF.  Go's loop
classifies each rune by its first byte and checks the accept range of
the second byte plus 0x80..0xBF for the remaining bytes; decodeRuneTail
performs that per-rune step, returning the bytes after the rune, and
the validity loop recurses with the list length as fuel (the loop runs
at most once per byte). -/

/-- Continuation byte test: second and later bytes of a multi-byte rune
lie in 0x80..0xBF. -/
def isCont (b : Nat) : Bool := 0x80 ≤ b && b ≤ 0xBF

/-- Accepted range of the second byte of a three-byte rune, which in Go
utf8 depends on the first byte (0xE0 excludes overlongs, 0xED excludes
surrogates). -/
def utf8Second3 (b c : Nat) : Bool :=
  if b = 0xE0 then 0xA0 ≤ c && c ≤ 0xBF
  else if b = 0xED then 0x80 ≤ c && c ≤ 0x9F
  else isCont c

/-- Accepted range of the second byte of a four-byte rune (0xF0 excludes
overlongs, 0xF4 caps at U+10FFFF). -/
def utf8Second4 (b c : Nat) : Bool :=
  if b = 0xF0 then 0x90 ≤ c && c ≤ 0xBF
  else if b = 0xF4 then 0x80 ≤ c && c ≤ 0x8F
  else isCont c

/-- One step of Go utf8.Valid: given the first byte of a rune and the
bytes after it, return the bytes following a correctly encoded rune, or
none when the encoding is invalid. -/
def decodeRuneTail (b : Nat) (rest : List Nat) : Option (List Nat) :=
  if b ≤ 0x7F then some rest
  else if 0xC2 ≤ b && b ≤ 0xDF then
    match rest with
    | c :: r => if isCont c then some r else none
    | [] => none
  else if 0xE0 ≤ b && b ≤ 0xEF then
    match rest with
    | c :: d :: r => if utf8Second3 b c && isCont d then some r else none
    | _ => none
  else if 0xF0 ≤ b && b ≤ 0xF4 then
    match rest with
    | c :: d :: e :: r => if utf8Second4 b c && isCont d && isCont e then some r else none
    | _ => none
  else none

/-- The validity loop with explicit fuel; Go utf8.Valid advances at
least one byte per iteration, so list length is enough fuel. -/
def utf8ValidFuel : Nat → List Nat → Bool
  | _, [] => true
  | 0, _ :: _ => false
  | fuel + 1, b :: rest =>
    match decodeRuneTail b rest with
    | some r => utf8ValidFuel fuel r
    | none => false

/-- Go utf8.Valid on a byte slice. -/
def utf8Valid (l : List Nat) : Bool := utf8ValidFuel l.length l

/-! Section 2: the Framer, translated from part_000 readFromSerial.
Each chunk returned by serialPort.Read is checked with utf8.Valid; an
invalid chunk is logged and skipped (continue) without touching
messageBuffer.  A valid chunk is appended to messageBuffer, and then
the inner loop repeatedly finds the first newline byte with
bytes.IndexByte and emits messageBuffer.Next(i+1) — the frame up to and
including the delimiter — on the broadcast channel. -/

/-- The newline delimiter byte. -/
def newlineByte : Nat := 10

/-- Index of the first occurrence of a byte, as bytes.IndexByte; when
the byte is absent this returns the list length (the Go loop only uses
the index when the byte is present). -/
def indexOfByte (b : Nat) : List Nat → Nat
  | [] => 0
  | x :: xs => if x = b then 0 else indexOfByte b xs + 1

/-- The inner framing loop of part_000 readFromSerial: repeatedly take
the prefix up to and including the first newline as one frame; return
the emitted frames in order and the leftover buffer. -/
def extractFrames (buf : List Nat) : List (List Nat) × List Nat :=
  if h : newlineByte ∈ buf then
    let i := indexOfByte newlineByte buf
    let rest := extractFrames (buf.drop (i + 1))
    (buf.take (i + 1) :: rest.1, rest.2)
  else ([], buf)
termination_by buf.length
decreasing_by
  have hpos : 0 < buf.length := List.length_pos.mpr (by rintro rfl; simp at h)
  simp only [List.length_drop]
  omega

/-- One read iteration of part_000 readFromSerial on an arriving chunk:
drop the chunk unread when it is not valid UTF-8, otherwise append it
to the accumulation buffer and extract every complete frame. -/
def framerStep (buf chunk : List Nat) : List (List Nat) × List Nat :=
  if utf8Valid chunk then extractFrames (buf ++ chunk) else ([], buf)

/-- Feeding a sequence of read chunks through the framer, collecting
all broadcast frames in order together with the final buffer. -/
def framerRun : List Nat → List (List Nat) → List (List Nat) × List Nat
  | buf, [] => ([], buf)
  | buf, c :: cs =>
    let r := framerStep buf c
    let rr := framerRun r.2 cs
    (r.1 ++ rr.1, rr.2)

/-! Section 3: the line-based reader variant of serial-monitor.go
readFromSerial, which reads whole lines with bufio ReadString and
broadcasts strings.TrimSpace of each line when the result is nonempty.
Lines are modelled as lists of code points; strings.TrimSpace trims
Unicode white space from both ends (for the Latin-1 range: tab 9,
newline 10, vertical tab 11, form feed 12, carriage return 13,
space 32, next line 0x85, no-break space 0xA0). -/

/-- White-space test of strings.TrimSpace restricted to the Latin-1
range of code points. -/
def isSpaceRune (c : Nat) : Bool :=
  c = 9 || c = 10 || c = 11 || c = 12 || c = 13 || c = 32 || c = 0x85 || c = 0xA0

/-- Trim white space on the left. -/
def trimLeftWS (l : List Nat) : List Nat := l.dropWhile isSpaceRune

/-- Trim white space on the right. -/
def trimRightWS (l : List Nat) : List Nat := (trimLeftWS l.reverse).reverse

/-- strings.TrimSpace: trim white space on both ends. -/
def trimSpace (l : List Nat) : List Nat := trimLeftWS (trimRightWS l)

/-- The per-line broadcast decision of serial-monitor.go readFromSerial:
trim the line read up to the newline; broadcast it only when nonempty. -/
def emitLine (line : List Nat) : Option (List Nat) :=
  let receivedMsg := trimSpace line
  if receivedMsg = [] then none else some receivedMsg

/-! Section 4: status strings sent to clients, copied from the Go
sources (serial-monitor.go main variant). -/

/-- Status when reading while no port is open. -/
def notOpenMsg : String := "Ошибка: последовательный порт не открыт."

/-- Status when a client command arrives while no port is open. -/
def notOpenDropMsg : String := "Ошибка: порт не открыт. Сообщение не отправлено."

/-- Status text preceding a serial write error. -/
def writeFailText : String := "Ошибка записи в последовательный порт: "

/-- Status text preceding a successfully written payload. -/
def sentOkText : String := "Отправлено на последовательный порт: "

/-- Status when a reconfigure request matches the current settings. -/
def settingsUnchangedMsg : String := "Настройки порта и скорости передачи не изменились."

/-- Status when a reconfigure request changes the settings. -/
def settingsChangedMsg (port : String) (baud : Int) : String :=
  "Изменены настройки: порт " ++ port ++ ", скорость передачи " ++ toString baud

/-- Status when the baud rate does not parse as an integer. -/
def baudConvErrMsg : String := "Ошибка преобразования скорости передачи."

/-- Status when the port field is not a string. -/
def portTypeErrMsg : String := "Ошибка: неверный тип данных для порта."

/-- Status when the baud-rate field is not a string. -/
def baudTypeErrMsg : String := "Ошибка: неверный тип данных для скорости передачи."

/-- Status when the command field is not a string. -/
def cmdTypeErrMsg : String := "Ошибка: неверный тип данных для команды."

/-- Status when the configured port vanished and settings are reset. -/
def portResetMsg : String := "Текущий порт больше не доступен. Настройки сброшены."

/-- Status when opening with no port configured. -/
def noPortSelectedMsg : String := "Порт не выбран."

/-- Status when opening the serial port fails. -/
def openFailMsg : String :=
  "Ошибка: не удалось открыть последовательный порт. Проверьте настройки и переподключитесь к порту."

/-- Status when opening the serial port succeeds. -/
def connectOkMsg (port : String) (baud : Int) : String :=
  "Подключение к последовательному порту " ++ port ++ " со скоростью " ++
    toString baud ++ " успешно!"

/-! Section 5: the Settings/Command Router.  Client payloads are JSON
objects decoded into a map from field names to dynamic values; the Go
code inspects the "port", "baudRate" and "command" fields and uses
type assertions to string.  JValue models the dynamic values a decoded
JSON field can hold (numbers become float64 in Go; only whether the
value is a string matters to the router). -/

/-- Dynamic JSON value as decoded by encoding/json into interface
values. -/
inductive JValue where
  | str (s : String)
  | num (x : Int)
  | boolv (b : Bool)
  | nullv
  | arrv
  | objv
  deriving DecidableEq

/-- Go type assertion value.(string): the string and success flag. -/
def asString : JValue → Option String
  | JValue.str s => some s
  | _ => none

/-- Field access in the decoded object. -/
def lookupField : List (String × JValue) → String → Option JValue
  | [], _ => none
  | (k2, v) :: rest, k => if k2 = k then some v else lookupField rest k

/-- Digit-string value for strconv.Atoi. -/
def digitsVal (ds : List Char) : Option Nat :=
  if ds = [] then none
  else if ds.all Char.isDigit then
    some (ds.foldl (fun acc c => acc * 10 + (c.toNat - 48)) 0)
  else none

/-- strconv.Atoi: optional sign followed by at least one digit
(integer overflow is not modelled; no claim depends on it). -/
def atoi (s : String) : Option Int :=
  match s.data with
  | [] => none
  | c :: ds =>
    if c = '+' then (digitsVal ds).map (fun n => (n : Int))
    else if c = '-' then (digitsVal ds).map (fun n => -(n : Int))
    else (digitsVal (c :: ds)).map (fun n => (n : Int))

/-- Current connection settings (type SerialSettings in Go). -/
structure SerialSettings where
  Port : String
  BaudRate : Int
  deriving DecidableEq

/-- Observable actions of the router: a message on the broadcast
channel, a call to reconnectSerialPort, or a payload pushed onto
serialWriteChan. -/
inductive REvent where
  | broadcast (msg : String)
  | reconnect
  | serialWrite (payload : String)
  deriving DecidableEq

/-- processSettings of serial-monitor.go: reconfigure when both port
and baudRate fields are present (with per-field type validation, baud
conversion, change detection), otherwise treat a command field as a
pass-through write request. -/
def processSettings (cur : SerialSettings) (message : List (String × JValue)) :
    SerialSettings × List REvent :=
  match lookupField message ("port"), lookupField message ("baudRate") with
  | some port, some baudRate =>
    match asString port, asString baudRate with
    | some portStr, some baudRateStr =>
      match atoi baudRateStr with
      | some baudRateInt =>
        if cur.Port ≠ portStr ∨ cur.BaudRate ≠ baudRateInt then
          ({ Port := portStr, BaudRate := baudRateInt },
            [REvent.broadcast (settingsChangedMsg portStr baudRateInt), REvent.reconnect])
        else (cur, [REvent.broadcast settingsUnchangedMsg])
      | none => (cur, [REvent.broadcast baudConvErrMsg])
    | pOk, bOk =>
      (cur,
        (if pOk = none then [REvent.broadcast portTypeErrMsg] else []) ++
          (if bOk = none then [REvent.broadcast baudTypeErrMsg] else []))
  | _, _ =>
    match lookupField message ("command") with
    | some command =>
      match asString command with
      | some commandStr => (cur, [REvent.serialWrite (commandStr ++ "\n")])
      | none => (cur, [REvent.broadcast cmdTypeErrMsg])
    | none => (cur, [])

/-- The corresponding inline handling in part_000 handleConnections:
Atoi runs on the asserted baud string before the type flags are
checked (a failed assertion yields the zero value ""), errors are only
logged, and a valid payload stores the settings and reconnects without
comparing against the current settings. -/
def processSettingsP0 (cur : SerialSettings) (message : List (String × JValue)) :
    SerialSettings × List REvent :=
  match lookupField message ("port") with
  | some port =>
    match lookupField message ("baudRate") with
    | some baudRate =>
      let portStr := (asString port).getD ("")
      let baudRateStr := (asString baudRate).getD ("")
      match atoi baudRateStr with
      | none => (cur, [])
      | some baudRateInt =>
        if (asString port).isSome && (asString baudRate).isSome then
          ({ Port := portStr, BaudRate := baudRateInt }, [REvent.reconnect])
        else (cur, [])
    | none => (cur, [])
  | none =>
    match lookupField message ("command") with
    | some command =>
      match asString command with
      | some commandStr => (cur, [REvent.serialWrite (commandStr ++ "\n")])
      | none => (cur, [])
    | none => (cur, [])

/-- One iteration of the handleConnections read loop after a successful
websocket read: a payload that fails json.Unmarshal is logged and
skipped; otherwise processSettings runs.  The returned flag is whether
the loop continues (the connection is only closed on a read error,
before this point). -/
def handleClientMessage (cur : SerialSettings)
    (parsed : Option (List (String × JValue))) :
    SerialSettings × List REvent × Bool :=
  match parsed with
  | none => (cur, [], true)
  | some message =>
    let r := processSettings cur message
    (r.1, r.2, true)

/-! Section 6: the Broadcaster.  handleMessages delivers one broadcast
message to every registered client; a failed write closes and deletes
that client.  notifyClients (part_000 and the third variant) also
delivers to every client but only logs failures.  Clients are modelled
by identifiers, delivery failure by a predicate, and one dispatch
returns the (client, message) deliveries made plus the surviving
client set. -/

/-- One dispatch of handleMessages: write the message to each client in
order; on a write error the client is closed and deleted from the
client set. -/
def handleMessagesDeliver (fails : Nat → Bool) (msg : String) :
    List Nat → List (Nat × String) × List Nat
  | [] => ([], [])
  | c :: rest =>
    let r := handleMessagesDeliver fails msg rest
    if fails c then (r.1, r.2)
    else ((c, msg) :: r.1, c :: r.2)

/-- One call of notifyClients: write the message to each client in
order; on a write error the failure is logged and the client is kept. -/
def notifyClientsDeliver (fails : Nat → Bool) (msg : String) :
    List Nat → List (Nat × String) × List Nat
  | [] => ([], [])
  | c :: rest =>
    let r := notifyClientsDeliver fails msg rest
    if fails c then (r.1, c :: r.2)
    else ((c, msg) :: r.1, c :: r.2)

/-! Section 7: the Connection Manager.  The globals currentSettings and
serialPort, plus the set of operating-system-level port handles that
are currently open, form the state.  openSerialPort is only called
from reconnectSerialPort, which first closes any existing connection
under serialPortMutex.  Opened connections get fresh identifiers; the
parameter ok stands for whether serial.OpenPort succeeds (on failure
Go's two-value assignment sets serialPort to nil). -/

/-- Connection-manager state: settings, the serialPort handle (none is
Go nil), the identifiers of connections the operating system currently
holds open, and a fresh-identifier counter. -/
structure MState where
  settings : SerialSettings
  serialPort : Option Nat
  openPorts : List Nat
  nextId : Nat
  deriving DecidableEq

/-- Observable connection-lifecycle actions. -/
inductive CEvent where
  | closePort (c : Nat)
  | openedPort (c : Nat)
  | statusMsg (s : String)
  deriving DecidableEq

/-- openSerialPort: report when no port is selected; otherwise attempt
serial.OpenPort — on success install the fresh connection in
serialPort, on failure set serialPort to nil and report. -/
def openSerialPortM (ok : Bool) (s : MState) : MState × List CEvent :=
  if s.settings.Port = ("") then (s, [CEvent.statusMsg noPortSelectedMsg])
  else if ok then
    ({ s with serialPort := some s.nextId,
              openPorts := s.nextId :: s.openPorts,
              nextId := s.nextId + 1 },
      [CEvent.openedPort s.nextId,
        CEvent.statusMsg (connectOkMsg s.settings.Port s.settings.BaudRate)])
  else
    ({ s with serialPort := none }, [CEvent.statusMsg openFailMsg])

/-- reconnectSerialPort: under serialPortMutex, close the existing
connection when one is held, then open anew. -/
def reconnectSerialPortM (ok : Bool) (s : MState) : MState × List CEvent :=
  match s.serialPort with
  | some c =>
    let r := openSerialPortM ok { s with openPorts := s.openPorts.erase c }
    (r.1, CEvent.closePort c :: r.2)
  | none => openSerialPortM ok s

/-- The initial program state: unconfigured settings, nil serialPort,
nothing open. -/
def initialMState : MState :=
  { settings := { Port := "", BaudRate := 0 }, serialPort := none,
    openPorts := [], nextId := 0 }

/-- States reachable by the callers of reconnectSerialPort: every call
site optionally replaces currentSettings first (processSettings stores
new settings, manageSerialConnection may reset them, the supervising
loop keeps them) and then reconnects, with serial.OpenPort succeeding
or failing. -/
inductive ReachableM : MState → Prop where
  | init : ReachableM initialMState
  | step (ns : Option SerialSettings) (ok : Bool) {s : MState} :
      ReachableM s →
      ReachableM (reconnectSerialPortM ok { s with settings := ns.getD s.settings }).1

/-- A concrete reachable state with an open connection: configure
"COM3" at 9600 and reconnect successfully. -/
def mstateOpen : MState :=
  (reconnectSerialPortM true
    { initialMState with settings := { Port := "COM3", BaudRate := 9600 } }).1

/-- A concrete reachable state after the settings were reset to empty
and a reconnect ran: the old connection is closed but serialPort still
holds the stale handle. -/
def mstateStale : MState :=
  (reconnectSerialPortM true
    { mstateOpen with settings := { Port := "", BaudRate := 0 } }).1

/-! Section 8: the Outbound Writer, translated from writeToSerial.  It
consumes serialWriteChan one request at a time; when serialPort is nil
the request is dropped with a status; otherwise serialPort.Write runs
and a per-request success or failure status is reported.  The state it
reads (serialPort, currentSettings) is threaded explicitly; the
failures function gives the outcome Go's Write returns for the i-th
request (none is success, some e is an error with text e). -/

/-- State visible to the Outbound Writer. -/
structure WState where
  serialPort : Option Nat
  settings : SerialSettings
  deriving DecidableEq

/-- Observable actions of the Outbound Writer: a status broadcast or a
write call on the physical connection. -/
inductive WEvent where
  | status (s : String)
  | txAttempt (conn : Nat) (payload : String)
  deriving DecidableEq

/-- One iteration of the writeToSerial loop on one request. -/
def writeToSerialStep (st : WState) (failure : Option String) (msg : String) :
    WState × List WEvent :=
  match st.serialPort with
  | none => (st, [WEvent.status notOpenDropMsg])
  | some c =>
    match failure with
    | some e => (st, [WEvent.txAttempt c msg, WEvent.status (writeFailText ++ e)])
    | none => (st, [WEvent.txAttempt c msg, WEvent.status (sentOkText ++ msg)])

/-- Consuming a queue of pending requests in order, numbering requests
so each write attempt can have its own outcome. -/
def writeToSerialRun (failures : Nat → Option String) :
    WState → Nat → List String → WState × List WEvent
  | st, _, [] => (st, [])
  | st, i, m :: ms =>
    let r := writeToSerialStep st (failures i) m
    let rr := writeToSerialRun failures r.1 (i + 1) ms
    (rr.1, r.2 ++ rr.2)

/-! Section 9: the port-monitoring loop of serial-monitor.go
manageSerialConnection: every two seconds enumerate the port list;
when it differs from the last observed list, send the new list, and if
the configured port is absent, reset the settings (only when the list
shrank) and reconnect. -/

/-- stringInSlice of serial-monitor.go. -/
def stringInSlice (str : String) : List String → Bool
  | [] => false
  | v :: rest => if str = v then true else stringInSlice str rest

/-- equalPortLists of serial-monitor.go: equal lengths and equal
elements position by position. -/
def equalPortLists (a b : List String) : Bool :=
  if a.length ≠ b.length then false
  else (a.zip b).all (fun p => p.1 == p.2)

/-- Observable actions of the monitoring loop: sendPortList output
(the enumerated list, broadcast as a summary line plus a JSON array),
a plain broadcast, or a reconnect. -/
inductive PEvent where
  | portListSent (ports : List String)
  | broadcast (msg : String)
  | reconnect
  deriving DecidableEq

/-- State carried across iterations of manageSerialConnection. -/
structure ManageState where
  settings : SerialSettings
  lastPortList : List String
  deriving DecidableEq

/-- One iteration of the manageSerialConnection loop given the freshly
enumerated port list. -/
def manageStep (st : ManageState) (portList : List String) :
    ManageState × List PEvent :=
  if equalPortLists portList st.lastPortList then (st, [])
  else
    if stringInSlice st.settings.Port portList then
      ({ st with lastPortList := portList }, [PEvent.portListSent portList])
    else if portList.length < st.lastPortList.length then
      ({ settings := { Port := "", BaudRate := 0 }, lastPortList := portList },
        [PEvent.portListSent portList, PEvent.broadcast portResetMsg,
          PEvent.reconnect])
    else
      ({ st with lastPortList := portList },
        [PEvent.portListSent portList, PEvent.reconnect])

/-- Invariant maintained by the connection manager: at most one live
connection, tied to the serialPort handle, and all identifiers in use
are below the freshness counter. -/
def ManagerInv (s : MState) : Prop :=
  (s.openPorts = [] ∨ ∃ c, s.openPorts = [c] ∧ s.serialPort = some c) ∧
  (∀ c ∈ s.openPorts, c < s.nextId) ∧
  (∀ c, s.serialPort = some c → c < s.nextId)

/-- A well-formed reconfigure payload used as a concrete test input. -/
def samplePayload : List (String × JValue) :=
  [("port", JValue.str ("COM3")), ("baudRate", JValue.str ("9600"))]

/-- A reconfigure payload whose port and baud-rate fields are both
numbers rather than strings. -/
def sampleBadPayload : List (String × JValue) :=
  [("port", JValue.num 5), ("baudRate", JValue.num 9600)]

/-! Section 10: supporting lemmas. -/

/-- A successfully decoded rune consumes at least the first byte: the
returned tail is a suffix-part of the input tail. -/
theorem decodeRuneTail_length {b : Nat} {rest r : List Nat}
    (h : decodeRuneTail b rest = some r) : r.length ≤ rest.length := by
  unfold decodeRuneTail at h
  rcases rest with _ | ⟨c, _ | ⟨d, _ | ⟨e, t⟩⟩⟩ <;>
    split_ifs at h <;> simp_all <;> omega

/-- Decoding one rune is insensitive to bytes appended after the input:
if a rune decodes from the front of a list, it decodes identically when
more bytes follow. -/
theorem decodeRuneTail_append {b : Nat} {rest r : List Nat} (bs : List Nat)
    (h : decodeRuneTail b rest = some r) :
    decodeRuneTail b (rest ++ bs) = some (r ++ bs) := by
  unfold decodeRuneTail at h ⊢
  rcases rest with _ | ⟨c, _ | ⟨d, _ | ⟨e, t⟩⟩⟩ <;>
    split_ifs at h ⊢ <;> simp_all

/-- Fuel irrelevance: any fuel at least the list length computes the
same validity verdict. -/
theorem utf8ValidFuel_congr :
    ∀ f1 f2 : Nat, ∀ l : List Nat, l.length ≤ f1 → l.length ≤ f2 →
      utf8ValidFuel f1 l = utf8ValidFuel f2 l := by
  intro f1
  induction f1 with
  | zero =>
    intro f2 l h1 _
    have : l = [] := List.length_eq_zero.mp (Nat.le_zero.mp h1)
    subst this
    cases f2 <;> rfl
  | succ g1 ih =>
    intro f2 l h1 h2
    cases l with
    | nil => cases f2 <;> rfl
    | cons b rest =>
      cases f2 with
      | zero => simp at h2
      | succ g2 =>
        show (match decodeRuneTail b rest with
              | some r => utf8ValidFuel g1 r
              | none => false) =
            (match decodeRuneTail b rest with
              | some r => utf8ValidFuel g2 r
              | none => false)
        cases hd : decodeRuneTail b rest with
        | none => rfl
        | some r =>
          have hr := decodeRuneTail_length hd
          simp only [List.length_cons] at h1 h2
          exact ih g2 r (by omega) (by omega)

/-- Validity of a concatenation, fuel form. -/
theorem utf8ValidFuel_append :
    ∀ f : Nat, ∀ a b : List Nat, a.length ≤ f →
      utf8ValidFuel f a = true → utf8Valid b = true →
      utf8ValidFuel (f + b.length) (a ++ b) = true := by
  intro f
  induction f with
  | zero =>
    intro a b h1 _ hb
    have : a = [] := List.length_eq_zero.mp (Nat.le_zero.mp h1)
    subst this
    simpa [utf8Valid, utf8ValidFuel_congr b.length (0 + b.length) b (by omega) (by omega)]
      using hb
  | succ g ih =>
    intro a b h1 ha hb
    cases a with
    | nil =>
      rw [List.nil_append]
      rw [utf8ValidFuel_congr (g + 1 + b.length) b.length b (by omega) (by omega)]
      exact hb
    | cons x rest =>
      rw [List.cons_append]
      have hstep : utf8ValidFuel (g + 1) (x :: rest) =
          (match decodeRuneTail x rest with
            | some r => utf8ValidFuel g r
            | none => false) := rfl
      rw [hstep] at ha
      cases hd : decodeRuneTail x rest with
      | none => rw [hd] at ha; simp at ha
      | some r =>
        rw [hd] at ha
        have hlen := decodeRuneTail_length hd
        simp only [List.length_cons] at h1
        have hrec := ih r b (by omega) ha hb
        have hdec := decodeRuneTail_append b hd
        have hfuel : g + 1 + b.length = (g + b.length) + 1 := by omega
        rw [hfuel]
        show (match decodeRuneTail x (rest ++ b) with
              | some r2 => utf8ValidFuel (g + b.length) r2
              | none => false) = true
        rw [hdec]
        exact hrec

/-- Validity of a concatenation: if two byte sequences are each valid
UTF-8 then so is their concatenation. -/
theorem utf8Valid_append (a b : List Nat)
    (ha : utf8Valid a = true) (hb : utf8Valid b = true) :
    utf8Valid (a ++ b) = true := by
  have h := utf8ValidFuel_append a.length a b (le_refl _) ha hb
  unfold utf8Valid
  rw [utf8ValidFuel_congr (a ++ b).length (a.length + b.length) (a ++ b)
    (le_refl _) (by simp)]
  exact h

/-- Validity of a flattened chunk list: if every chunk is valid UTF-8
then the concatenation of all chunks is valid UTF-8. -/
theorem utf8Valid_join (cs : List (List Nat))
    (h : ∀ c ∈ cs, utf8Valid c = true) : utf8Valid cs.flatten = true := by
  induction cs with
  | nil => rfl
  | cons c rest ih =>
    rw [List.flatten_cons]
    exact utf8Valid_append c rest.flatten (h c (by simp))
      (ih fun x hx => h x (by simp [hx]))

/-- indexOfByte of a present byte is below the length. -/
theorem indexOfByte_lt_length {b : Nat} :
    ∀ {l : List Nat}, b ∈ l → indexOfByte b l < l.length := by
  intro l
  induction l with
  | nil => intro h; simp at h
  | cons x xs ih =>
    intro h
    by_cases hx : x = b
    · simp [indexOfByte, hx]
    · have hb : b ∈ xs := by
        rcases List.mem_cons.mp h with h1 | h1
        · exact absurd h1.symm hx
        · exact h1
      simp only [indexOfByte, hx, if_false, List.length_cons]
      exact Nat.succ_lt_succ (ih hb)

/-- indexOfByte looks only at the part of the list before the first
occurrence, so appending bytes does not move it. -/
theorem indexOfByte_append {b : Nat} :
    ∀ {l : List Nat}, ∀ c : List Nat, b ∈ l →
      indexOfByte b (l ++ c) = indexOfByte b l := by
  intro l
  induction l with
  | nil => intro c h; simp at h
  | cons x xs ih =>
    intro c h
    by_cases hx : x = b
    · simp [indexOfByte, hx]
    · have hb : b ∈ xs := by
        rcases List.mem_cons.mp h with h1 | h1
        · exact absurd h1.symm hx
        · exact h1
      simp only [List.cons_append, indexOfByte, hx, if_false, List.append_eq]
      rw [ih c hb]

/-- The element at the first-occurrence index is the byte itself, so
the prefix of length index + 1 ends with the byte. -/
theorem take_indexOfByte_getLast {b : Nat} :
    ∀ {l : List Nat}, b ∈ l →
      (l.take (indexOfByte b l + 1)).getLast? = some b := by
  intro l
  induction l with
  | nil => intro h; simp at h
  | cons x xs ih =>
    intro h
    by_cases hx : x = b
    · simp [indexOfByte, hx]
    · have hb : b ∈ xs := by
        rcases List.mem_cons.mp h with h1 | h1
        · exact absurd h1.symm hx
        · exact h1
      simp only [indexOfByte, hx, if_false]
      rw [List.take_succ_cons, List.getLast?_cons, ih hb]
      rfl

/-- The leftover buffer after frame extraction never contains the
delimiter. -/
theorem extractFrames_no_newline :
    ∀ buf : List Nat, newlineByte ∉ (extractFrames buf).2 := by
  intro buf
  induction buf using extractFrames.induct with
  | case1 buf h i ih =>
    rw [extractFrames, dif_pos h]
    exact ih
  | case2 buf h =>
    rw [extractFrames, dif_neg h]
    exact h

/-- Every frame produced by extraction ends with the delimiter byte. -/
theorem extractFrames_frames_end_newline :
    ∀ buf : List Nat, ∀ f ∈ (extractFrames buf).1,
      f.getLast? = some newlineByte := by
  intro buf
  induction buf using extractFrames.induct with
  | case1 buf h i ih =>
    rw [extractFrames, dif_pos h]
    intro f hf
    rcases List.mem_cons.mp hf with h1 | h1
    · subst h1; exact take_indexOfByte_getLast h
    · exact ih f h1
  | case2 buf h =>
    rw [extractFrames, dif_neg h]
    intro f hf
    simp at hf

/-- Streaming decomposition of the extraction loop: extracting from a
buffer followed by more bytes equals extracting from the buffer first
and then extracting from its leftover followed by the new bytes. -/
theorem extractFrames_append :
    ∀ buf c : List Nat,
      extractFrames (buf ++ c) =
        ((extractFrames buf).1 ++ (extractFrames ((extractFrames buf).2 ++ c)).1,
          (extractFrames ((extractFrames buf).2 ++ c)).2) := by
  intro buf
  induction buf using extractFrames.induct with
  | case1 buf h i ih =>
    intro c
    have hmem : newlineByte ∈ buf ++ c := List.mem_append_left c h
    have hi := indexOfByte_lt_length h
    have hidx := indexOfByte_append c h
    have htake : (buf ++ c).take (indexOfByte newlineByte buf + 1) =
        buf.take (indexOfByte newlineByte buf + 1) :=
      List.take_append_of_le_length (by omega)
    have hdrop : (buf ++ c).drop (indexOfByte newlineByte buf + 1) =
        buf.drop (indexOfByte newlineByte buf + 1) ++ c :=
      List.drop_append_of_le_length (by omega)
    have hrec := ih c
    conv_lhs => rw [extractFrames, dif_pos hmem]
    conv_rhs => rw [extractFrames, dif_pos h]
    simp only [hidx, htake, hdrop]
    rw [hrec]
    simp
  | case2 buf h =>
    intro c
    have h2 : (extractFrames buf) = ([], buf) := by
      rw [extractFrames, dif_neg h]
    rw [h2]
    simp

/-- Running the framer over valid chunks equals a single extraction
over the whole concatenated byte stream, given a delimiter-free
starting buffer. -/
theorem framerRun_eq_extract :
    ∀ (chunks : List (List Nat)) (buf : List Nat),
      (∀ ch ∈ chunks, utf8Valid ch = true) → newlineByte ∉ buf →
      framerRun buf chunks =
        ((extractFrames (buf ++ chunks.flatten)).1,
          (extractFrames (buf ++ chunks.flatten)).2) := by
  intro chunks
  induction chunks with
  | nil =>
    intro buf _ hbuf
    have h2 : (extractFrames buf) = ([], buf) := by
      rw [extractFrames, dif_neg hbuf]
    simp [framerRun, h2]
  | cons c cs ih =>
    intro buf hvalid hbuf
    have hc : utf8Valid c = true := hvalid c (by simp)
    have hstep : framerStep buf c = extractFrames (buf ++ c) := by
      rw [framerStep, if_pos hc]
    have hrest := ih (extractFrames (buf ++ c)).2
      (fun x hx => hvalid x (by simp [hx]))
      (extractFrames_no_newline (buf ++ c))
    show (let r := framerStep buf c
          let rr := framerRun r.2 cs
          (r.1 ++ rr.1, rr.2)) = _
    simp only [hstep, hrest]
    rw [List.flatten_cons, ← List.append_assoc]
    rw [extractFrames_append (buf ++ c) cs.flatten]

/-- Extraction evaluated on the concrete stream "OK\n". -/
theorem extractFrames_eval_OK :
    extractFrames [79, 75, 10] = ([[79, 75, 10]], []) := by
  rw [extractFrames, dif_pos (by decide)]
  norm_num [indexOfByte, newlineByte]
  rw [extractFrames, dif_neg (by decide)]
  exact ⟨rfl, rfl⟩

/-- Extraction evaluated on the concrete stream 0xC3 0xA9 0x0A. -/
theorem extractFrames_eval_eacute :
    extractFrames [195, 169, 10] = ([[195, 169, 10]], []) := by
  rw [extractFrames, dif_pos (by decide)]
  norm_num [indexOfByte, newlineByte]
  rw [extractFrames, dif_neg (by decide)]
  exact ⟨rfl, rfl⟩

/-- Every frame the framer run broadcasts ends with the delimiter. -/
theorem framerRun_frames_end_newline :
    ∀ (chunks : List (List Nat)) (buf : List Nat),
      ∀ f ∈ (framerRun buf chunks).1, f.getLast? = some newlineByte := by
  intro chunks
  induction chunks with
  | nil =>
    intro buf f hf
    simp [framerRun] at hf
  | cons c cs ih =>
    intro buf f hf
    have hf2 : f ∈ (framerStep buf c).1 ++ (framerRun (framerStep buf c).2 cs).1 := hf
    rcases List.mem_append.mp hf2 with h1 | h1
    · by_cases hv : utf8Valid c = true
      · rw [framerStep, if_pos hv] at h1
        exact extractFrames_frames_end_newline (buf ++ c) f h1
      · rw [framerStep, if_neg hv] at h1
        simp at h1
    · exact ih _ f h1

/-! Section 11: claims about the Framer (C1, C7, C9). -/

/-- C1, counterexample: the byte stream 0xC3 0xA9 0x0A (the letter é in
UTF-8 followed by the newline delimiter) framed as the two read chunks
[0xC3] and [0xA9, 0x0A] emits no message, because each chunk in
isolation fails the per-chunk utf8.Valid test of part_000 readFromSerial
and is dropped; framing the whole stream in one call emits one message.
Chunk boundaries are therefore observable, contradicting the claim for
arbitrary byte streams. -/
theorem framer_chunk_split_matters :
    (framerRun [] [[195], [169, 10]]).1 = [] ∧
    (framerRun [] [[195, 169, 10]]).1 = [[195, 169, 10]] ∧
    (framerRun [] [[195], [169, 10]]).1 ≠ (framerRun [] [[195, 169, 10]]).1 := by
  have h1 : framerRun [] [[195], [169, 10]] = ([], []) := rfl
  have h2 : framerRun [] [[195, 169, 10]] =
      ((extractFrames ([] ++ [195, 169, 10])).1 ++ ([] : List (List Nat)),
        (extractFrames ([] ++ [195, 169, 10])).2) := rfl
  rw [List.nil_append] at h2
  rw [extractFrames_eval_eacute] at h2
  refine ⟨by rw [h1], by rw [h2]; simp, by rw [h1, h2]; simp⟩

/-- C1, amended: for every byte stream and every split of it into read
chunks that are each individually valid UTF-8, feeding the chunks one
at a time to the framer emits exactly the messages (and leaves exactly
the buffer) obtained by framing the whole concatenated stream in a
single call. -/
theorem framer_chunk_boundary_independent (chunks : List (List Nat))
    (h : ∀ c ∈ chunks, utf8Valid c = true) :
    framerRun [] chunks = framerRun [] [chunks.flatten] := by
  have h1 := framerRun_eq_extract chunks [] h (by simp)
  have hjoin : utf8Valid chunks.flatten = true := utf8Valid_join chunks h
  have h2 := framerRun_eq_extract [chunks.flatten] []
    (by intro x hx; rw [List.mem_singleton] at hx; subst hx; exact hjoin)
    (by simp)
  rw [h1, h2]
  simp

/-- C1, amended, witness at the chunks "O" and "K\n" of Scenario 2. -/
theorem framer_chunk_boundary_independent_witness :
    (∀ c ∈ [[79], [75, 10]], utf8Valid c = true) ∧
    framerRun [] [[79], [75, 10]] = framerRun [] [[[79], [75, 10]].flatten] :=
  ⟨by decide, framer_chunk_boundary_independent [[79], [75, 10]] (by decide)⟩

/-- C7: a chunk that is not valid UTF-8 is discarded as a unit — no
message is emitted from it and the accumulation buffer is exactly what
it was before the chunk arrived — and the rest of the run proceeds as
if the chunk had never been received. -/
theorem framer_invalid_chunk_discarded (buf c : List Nat)
    (h : utf8Valid c = false) (cs : List (List Nat)) :
    framerStep buf c = ([], buf) ∧
    framerRun buf (c :: cs) = framerRun buf cs := by
  have hstep : framerStep buf c = ([], buf) := by
    rw [framerStep, if_neg (by simp [h])]
  refine ⟨hstep, ?_⟩
  show (let r := framerStep buf c
        let rr := framerRun r.2 cs
        (r.1 ++ rr.1, rr.2)) = framerRun buf cs
  rw [hstep]
  simp

/-- C7, witness at the invalid chunk [0xFF] arriving between a buffered
byte and a valid chunk. -/
theorem framer_invalid_chunk_discarded_witness :
    utf8Valid [255] = false ∧
    (framerStep [72] [255] = ([], [72]) ∧
      framerRun [72] [[255], [73, 10]] = framerRun [72] [[73, 10]]) :=
  ⟨by decide, framer_invalid_chunk_discarded [72] [255] (by decide) [[73, 10]]⟩

/-- C9, counterexample: part_000 broadcasts each frame verbatim with
the delimiter included — the stream "OK\n" yields the broadcast message
[79, 75, 10], which is not the frame with its delimiter and trailing
white space stripped ([79, 75]). -/
theorem framer_emits_delimiter :
    (framerRun [] [[79, 75, 10]]).1 = [[79, 75, 10]] ∧
    trimRightWS [79, 75, 10] = [79, 75] ∧
    ([79, 75, 10] : List Nat) ≠ [79, 75] := by
  have h2 : framerRun [] [[79, 75, 10]] =
      ((extractFrames ([] ++ [79, 75, 10])).1 ++ ([] : List (List Nat)),
        (extractFrames ([] ++ [79, 75, 10])).2) := rfl
  rw [List.nil_append] at h2
  rw [extractFrames_eval_OK] at h2
  refine ⟨by rw [h2]; simp, by decide, by decide⟩

/-- C9, amended: every message the part_000 framer broadcasts is the
extracted frame verbatim — in particular it is nonempty and ends with
the newline delimiter — while the line-based serial-monitor.go variant
broadcasts the line with leading and trailing white space (delimiter
included) stripped and suppresses lines that are entirely white
space. -/
theorem framer_broadcast_shape (chunks : List (List Nat)) (msg : List Nat)
    (hm : msg ∈ (framerRun [] chunks).1) (line m2 : List Nat)
    (hl : emitLine line = some m2) :
    msg.getLast? = some newlineByte ∧ m2 = trimSpace line ∧ m2 ≠ [] := by
  refine ⟨framerRun_frames_end_newline chunks [] msg hm, ?_, ?_⟩
  · unfold emitLine at hl
    by_cases he : trimSpace line = [] <;> simp [he] at hl
    exact hl.symm
  · unfold emitLine at hl
    by_cases he : trimSpace line = [] <;> simp [he] at hl
    rw [hl] at he
    exact he

/-- C9, amended, witness: the frame from "OK\n" and the line
" OK\n". -/
theorem framer_broadcast_shape_witness :
    ([79, 75, 10] : List Nat) ∈ (framerRun [] [[79, 75, 10]]).1 ∧
    emitLine [32, 79, 75, 10] = some [79, 75] ∧
    (([79, 75, 10] : List Nat).getLast? = some newlineByte ∧
      ([79, 75] : List Nat) = trimSpace [32, 79, 75, 10] ∧
      ([79, 75] : List Nat) ≠ []) := by
  have hm : ([79, 75, 10] : List Nat) ∈ (framerRun [] [[79, 75, 10]]).1 := by
    have h2 : framerRun [] [[79, 75, 10]] =
        ((extractFrames ([] ++ [79, 75, 10])).1 ++ ([] : List (List Nat)),
          (extractFrames ([] ++ [79, 75, 10])).2) := rfl
    rw [List.nil_append] at h2
    rw [extractFrames_eval_OK] at h2
    rw [h2]
    simp
  exact ⟨hm, by decide,
    framer_broadcast_shape [[79, 75, 10]] [79, 75, 10] hm [32, 79, 75, 10] [79, 75] (by decide)⟩

/-! Section 12: claims about the Settings/Command Router (C2, C8). -/

/-- Settings comparison used by processSettings matches record
inequality. -/
theorem settings_ne_iff (st : SerialSettings) (p : String) (n : Int) :
    (st.Port ≠ p ∨ st.BaudRate ≠ n) ↔ st ≠ { Port := p, BaudRate := n } := by
  cases st
  simp only [SerialSettings.mk.injEq, ne_eq, not_and]
  tauto

/-- Normal form of processSettings on a well-typed reconfigure
payload. -/
theorem processSettings_well_typed (message : List (String × JValue))
    (p bs : String) (n : Int)
    (hp : lookupField message ("port") = some (JValue.str p))
    (hb : lookupField message ("baudRate") = some (JValue.str bs))
    (hn : atoi bs = some n) :
    ∀ st : SerialSettings, processSettings st message =
      if st.Port ≠ p ∨ st.BaudRate ≠ n then
        ({ Port := p, BaudRate := n },
          [REvent.broadcast (settingsChangedMsg p n), REvent.reconnect])
      else (st, [REvent.broadcast settingsUnchangedMsg]) := by
  intro st
  simp only [processSettings, hp, hb, asString, hn]

/-- C2, amended: processSettings of serial-monitor.go performs change
detection — a reconfigure payload identical to the current settings
triggers no reconnect and reports the unchanged status, a differing
payload stores the new settings and triggers exactly one reconnect,
and a second call with the same payload always reports unchanged and
does not reconnect.  (The part_000 variant instead reconnects
unconditionally.) -/
theorem processSettings_idempotent_reconfigure (cur : SerialSettings)
    (message : List (String × JValue)) (p bs : String) (n : Int)
    (hp : lookupField message ("port") = some (JValue.str p))
    (hb : lookupField message ("baudRate") = some (JValue.str bs))
    (hn : atoi bs = some n) :
    (cur = { Port := p, BaudRate := n } →
      processSettings cur message = (cur, [REvent.broadcast settingsUnchangedMsg])) ∧
    (cur ≠ { Port := p, BaudRate := n } →
      processSettings cur message =
        ({ Port := p, BaudRate := n },
          [REvent.broadcast (settingsChangedMsg p n), REvent.reconnect])) ∧
    (processSettings (processSettings cur message).1 message).2 =
      [REvent.broadcast settingsUnchangedMsg] := by
  have hbase := processSettings_well_typed message p bs n hp hb hn
  refine ⟨?_, ?_, ?_⟩
  · intro hcur
    rw [hbase cur, if_neg (by rw [settings_ne_iff]; simp [hcur])]
  · intro hcur
    rw [hbase cur, if_pos ((settings_ne_iff cur p n).mpr hcur)]
  · by_cases hcur : cur = { Port := p, BaudRate := n }
    · rw [hbase cur, if_neg (by rw [settings_ne_iff]; simp [hcur])]
      rw [hbase cur, if_neg (by rw [settings_ne_iff]; simp [hcur])]
    · rw [hbase cur, if_pos ((settings_ne_iff cur p n).mpr hcur)]
      rw [hbase { Port := p, BaudRate := n },
        if_neg (by rw [settings_ne_iff]; simp)]

/-- C2, amended, witness: reconfiguring from COM1 at 115200 with the
COM3 at 9600 payload, twice. -/
theorem processSettings_idempotent_reconfigure_witness :
    (lookupField samplePayload ("port") = some (JValue.str ("COM3")) ∧
      lookupField samplePayload ("baudRate") = some (JValue.str ("9600")) ∧
      atoi ("9600") = some 9600) ∧
    (({ Port := "COM1", BaudRate := 115200 } : SerialSettings) =
        { Port := "COM3", BaudRate := 9600 } →
      processSettings { Port := "COM1", BaudRate := 115200 } samplePayload =
        ({ Port := "COM1", BaudRate := 115200 },
          [REvent.broadcast settingsUnchangedMsg])) ∧
    (({ Port := "COM1", BaudRate := 115200 } : SerialSettings) ≠
        { Port := "COM3", BaudRate := 9600 } →
      processSettings { Port := "COM1", BaudRate := 115200 } samplePayload =
        ({ Port := "COM3", BaudRate := 9600 },
          [REvent.broadcast (settingsChangedMsg ("COM3") 9600), REvent.reconnect])) ∧
    (processSettings
        (processSettings { Port := "COM1", BaudRate := 115200 } samplePayload).1
        samplePayload).2 = [REvent.broadcast settingsUnchangedMsg] := by
  have t := processSettings_idempotent_reconfigure
    { Port := "COM1", BaudRate := 115200 } samplePayload ("COM3") ("9600") 9600
    (by decide) (by decide) (by decide)
  exact ⟨⟨by decide, by decide, by decide⟩, t.1, t.2.1, t.2.2⟩

/-- C2, counterexample: in part_000 a reconfigure payload identical to
the current settings still triggers a reconnect and no unchanged status
is reported — configure twice with identical settings reconnects
twice. -/
theorem p0_reconfigure_not_idempotent :
    processSettingsP0 { Port := "COM3", BaudRate := 9600 } samplePayload =
      ({ Port := "COM3", BaudRate := 9600 }, [REvent.reconnect]) ∧
    REvent.reconnect ∈
      (processSettingsP0 (processSettingsP0 { Port := "COM3", BaudRate := 9600 }
        samplePayload).1 samplePayload).2 ∧
    REvent.broadcast settingsUnchangedMsg ∉
      (processSettingsP0 (processSettingsP0 { Port := "COM3", BaudRate := 9600 }
        samplePayload).1 samplePayload).2 := by
  exact ⟨by decide, by decide, by decide⟩

/-- C8, amended: processSettings of serial-monitor.go reports one
specific error per malformed field — a port type error exactly when the
port field is not a string and a baud-rate type error exactly when the
baud-rate field is not a string — leaves the settings unchanged,
triggers no reconnect and no write, and the client connection stays
open.  (The part_000 variant instead runs Atoi on the zero value of a
failed assertion and reports nothing per field.) -/
theorem processSettings_per_field_type_errors (cur : SerialSettings)
    (message : List (String × JValue)) (port baudRate : JValue)
    (hp : lookupField message ("port") = some port)
    (hb : lookupField message ("baudRate") = some baudRate)
    (hbad : asString port = none ∨ asString baudRate = none) :
    (processSettings cur message).1 = cur ∧
    (processSettings cur message).2 =
      (if asString port = none then [REvent.broadcast portTypeErrMsg] else []) ++
        (if asString baudRate = none then [REvent.broadcast baudTypeErrMsg] else []) ∧
    REvent.reconnect ∉ (processSettings cur message).2 ∧
    (∀ s2 : String, REvent.serialWrite s2 ∉ (processSettings cur message).2) ∧
    (handleClientMessage cur (some message)).2.2 = true := by
  have hmain : processSettings cur message =
      (cur,
        (if asString port = none then [REvent.broadcast portTypeErrMsg] else []) ++
          (if asString baudRate = none then [REvent.broadcast baudTypeErrMsg] else [])) := by
    simp only [processSettings, hp, hb]
    cases hport : asString port with
    | none =>
      cases hbaud : asString baudRate with
      | none => simp
      | some bs2 => simp
    | some ps =>
      cases hbaud : asString baudRate with
      | none => simp
      | some bs2 =>
        rw [hport, hbaud] at hbad
        simp at hbad
  refine ⟨by rw [hmain], by rw [hmain], ?_, ?_, ?_⟩
  · rw [hmain]
    split_ifs <;> simp
  · intro s2
    rw [hmain]
    split_ifs <;> simp
  · rfl

/-- C8, amended, witness: a payload whose port and baud-rate fields are
both numbers. -/
theorem processSettings_per_field_type_errors_witness :
    (lookupField sampleBadPayload ("port") = some (JValue.num 5) ∧
      lookupField sampleBadPayload ("baudRate") = some (JValue.num 9600) ∧
      (asString (JValue.num 5) = none ∨ asString (JValue.num 9600) = none)) ∧
    ((processSettings { Port := "COM1", BaudRate := 9600 } sampleBadPayload).1 =
        { Port := "COM1", BaudRate := 9600 } ∧
      (processSettings { Port := "COM1", BaudRate := 9600 } sampleBadPayload).2 =
        (if asString (JValue.num 5) = none
          then [REvent.broadcast portTypeErrMsg] else []) ++
          (if asString (JValue.num 9600) = none
            then [REvent.broadcast baudTypeErrMsg] else []) ∧
      REvent.reconnect ∉
        (processSettings { Port := "COM1", BaudRate := 9600 } sampleBadPayload).2 ∧
      (∀ s2 : String, REvent.serialWrite s2 ∉
        (processSettings { Port := "COM1", BaudRate := 9600 } sampleBadPayload).2) ∧
      (handleClientMessage { Port := "COM1", BaudRate := 9600 }
        (some sampleBadPayload)).2.2 = true) :=
  ⟨⟨by decide, by decide, by decide⟩,
    processSettings_per_field_type_errors { Port := "COM1", BaudRate := 9600 }
      sampleBadPayload (JValue.num 5) (JValue.num 9600)
      (by decide) (by decide) (by decide)⟩

/-- C8, counterexample: in part_000 a payload with both fields of the
wrong primitive type produces no report at all — Atoi runs first on the
zero value "" of the failed baud assertion and the iteration just
continues — so no per-field error is reported. -/
theorem p0_reports_no_type_errors :
    asString (JValue.num 5) = none ∧
    asString (JValue.num 9600) = none ∧
    processSettingsP0 { Port := "COM1", BaudRate := 9600 } sampleBadPayload =
      ({ Port := "COM1", BaudRate := 9600 }, []) := by
  exact ⟨rfl, rfl, by decide⟩

/-! Section 13: claims about the Broadcaster (C3). -/

/-- Characterization of one handleMessages dispatch: exactly the
clients whose write succeeds receive the message, and exactly those
clients survive in the client set. -/
theorem handleMessagesDeliver_eq (fails : Nat → Bool) (msg : String) :
    ∀ clients : List Nat,
      handleMessagesDeliver fails msg clients =
        ((clients.filter (fun c => !fails c)).map (fun c => (c, msg)),
          clients.filter (fun c => !fails c)) := by
  intro clients
  induction clients with
  | nil => rfl
  | cons c rest ih =>
    by_cases hc : fails c
    · simp only [handleMessagesDeliver, ih, hc, if_true, List.filter_cons,
        Bool.not_true, List.map_cons]
      simp [hc]
    · simp only [handleMessagesDeliver, ih, hc, if_false, List.filter_cons,
        Bool.not_false, List.map_cons]
      simp [hc]

/-- C3, amended: in a handleMessages dispatch, a client whose delivery
fails is removed from the client set, every client whose delivery
succeeds still receives exactly the dispatched message and stays in
the set, and one client's failure neither interrupts delivery to the
others nor removes any other client.  (The notifyClients path delivers
to all surviving clients too, but keeps failed clients in the set.) -/
theorem broadcast_failure_isolation (fails : Nat → Bool) (msg : String)
    (clients : List Nat) (a b : Nat) (ha : a ∈ clients) (hfa : fails a = true)
    (hb : b ∈ clients) (hfb : fails b = false) :
    (b, msg) ∈ (handleMessagesDeliver fails msg clients).1 ∧
    a ∉ (handleMessagesDeliver fails msg clients).2 ∧
    b ∈ (handleMessagesDeliver fails msg clients).2 ∧
    (∀ pr ∈ (handleMessagesDeliver fails msg clients).1, pr.2 = msg) ∧
    (∀ c ∈ clients, fails c = false →
      c ∈ (handleMessagesDeliver fails msg clients).2) := by
  rw [handleMessagesDeliver_eq]
  refine ⟨?_, ?_, ?_, ?_, ?_⟩
  · exact List.mem_map.mpr ⟨b, List.mem_filter.mpr ⟨hb, by simp [hfb]⟩, rfl⟩
  · intro hmem
    have := (List.mem_filter.mp hmem).2
    simp [hfa] at this
  · exact List.mem_filter.mpr ⟨hb, by simp [hfb]⟩
  · intro pr hpr
    rcases List.mem_map.mp hpr with ⟨c, _, hc2⟩
    rw [← hc2]
  · intro c hc hcf
    exact List.mem_filter.mpr ⟨hc, by simp [hcf]⟩

/-- C3, amended, witness: clients 0 and 1, where delivery to client 0
fails. -/
theorem broadcast_failure_isolation_witness :
    ((0 : Nat) ∈ [0, 1] ∧ (fun c : Nat => c == 0) 0 = true ∧
      (1 : Nat) ∈ [0, 1] ∧ (fun c : Nat => c == 0) 1 = false) ∧
    ((1, "hello") ∈ (handleMessagesDeliver (fun c => c == 0) ("hello") [0, 1]).1 ∧
      (0 : Nat) ∉ (handleMessagesDeliver (fun c => c == 0) ("hello") [0, 1]).2 ∧
      (1 : Nat) ∈ (handleMessagesDeliver (fun c => c == 0) ("hello") [0, 1]).2 ∧
      (∀ pr ∈ (handleMessagesDeliver (fun c => c == 0) ("hello") [0, 1]).1,
        pr.2 = "hello") ∧
      (∀ c ∈ [0, 1], (fun c2 : Nat => c2 == 0) c = false →
        c ∈ (handleMessagesDeliver (fun c2 => c2 == 0) ("hello") [0, 1]).2)) :=
  ⟨⟨by decide, by decide, by decide, by decide⟩,
    broadcast_failure_isolation (fun c => c == 0) ("hello") [0, 1] 0 1
      (by decide) (by decide) (by decide) (by decide)⟩

/-- C3, counterexample: the notifyClients delivery path does not remove
a client whose delivery fails — client 0 fails yet remains in the
client set — so removal does not hold on every path that delivers a
message to all clients. -/
theorem notifyClients_keeps_failed_client :
    (fun c : Nat => c == 0) 0 = true ∧
    (notifyClientsDeliver (fun c => c == 0) ("hello") [0, 1]).2 = [0, 1] ∧
    (0 : Nat) ∈ (notifyClientsDeliver (fun c => c == 0) ("hello") [0, 1]).2 ∧
    (notifyClientsDeliver (fun c => c == 0) ("hello") [0, 1]).1 = [(1, "hello")] := by
  exact ⟨by decide, by decide, by decide, by decide⟩

/-! Section 14: claims about the Connection Manager (C4). -/

/-- One reconnect (with any prior settings replacement) preserves the
manager invariant. -/
theorem managerInv_step (s : MState) (hInv : ManagerInv s)
    (ns : Option SerialSettings) (ok : Bool) :
    ManagerInv (reconnectSerialPortM ok { s with settings := ns.getD s.settings }).1 := by
  obtain ⟨h1, h2, h3⟩ := hInv
  obtain ⟨st, sp, op, ni⟩ := s
  dsimp only at h1 h2 h3
  rcases sp with _ | c
  · have hop : op = [] := by
      rcases h1 with h1 | ⟨c2, hc2, hc⟩
      · exact h1
      · cases hc
    subst hop
    unfold reconnectSerialPortM openSerialPortM ManagerInv
    split_ifs <;> simp_all
  · have hcn : c < ni := h3 c rfl
    have hop : op.erase c = [] := by
      rcases h1 with h1 | ⟨c2, hc2, hc⟩
      · rw [h1]; rfl
      · cases hc; rw [hc2]; simp
    unfold reconnectSerialPortM openSerialPortM ManagerInv
    dsimp only
    rw [hop]
    split_ifs <;> simp_all

/-- Every reachable manager state satisfies the invariant. -/
theorem managerInv_reachable (s : MState) (h : ReachableM s) : ManagerInv s := by
  induction h with
  | init =>
    refine ⟨Or.inl rfl, ?_, ?_⟩ <;> simp [initialMState]
  | step ns ok hs ih => exact managerInv_step _ ih ns ok

/-- C4, amended: at every reachable state of the connection manager at
most one physical connection is live (none, or exactly one and it is
the one the serialPort handle refers to), and every reconnect closes
the previously held connection first: its trace starts with the close
of the old connection, and the old connection is no longer open
afterwards.  (The serialPort handle itself, however, can survive as a
stale non-nil reference to the closed connection when the reconnect
finds no port configured.) -/
theorem connection_manager_single_live (s : MState) (h : ReachableM s)
    (c : Nat) (ns : Option SerialSettings) (ok : Bool) :
    (s.openPorts = [] ∨ ∃ x, s.openPorts = [x] ∧ s.serialPort = some x) ∧
    (s.serialPort = some c →
      (reconnectSerialPortM ok { s with settings := ns.getD s.settings }).2.head? =
        some (CEvent.closePort c) ∧
      c ∉ (reconnectSerialPortM ok { s with settings := ns.getD s.settings }).1.openPorts) := by
  obtain ⟨h1, h2, h3⟩ := managerInv_reachable s h
  refine ⟨h1, ?_⟩
  obtain ⟨st, sp, op, ni⟩ := s
  dsimp only at h1 h2 h3 ⊢
  intro hsp
  subst hsp
  have hcn : c < ni := h3 c rfl
  have hop : op.erase c = [] := by
    rcases h1 with h1 | ⟨c2, hc2, hc⟩
    · rw [h1]; rfl
    · cases hc; rw [hc2]; simp
  constructor
  · rfl
  · unfold reconnectSerialPortM openSerialPortM
    dsimp only
    rw [hop]
    split_ifs <;> simp_all <;> omega

/-- C4, amended, witness at the reachable open state. -/
theorem connection_manager_single_live_witness :
    ReachableM mstateOpen ∧
    ((mstateOpen.openPorts = [] ∨
        ∃ x, mstateOpen.openPorts = [x] ∧ mstateOpen.serialPort = some x) ∧
      (mstateOpen.serialPort = some 0 →
        (reconnectSerialPortM true { mstateOpen with settings := (some { Port := "COM5", BaudRate := 19200 }).getD mstateOpen.settings }).2.head? = some (CEvent.closePort 0) ∧
        0 ∉ (reconnectSerialPortM true { mstateOpen with settings := (some { Port := "COM5", BaudRate := 19200 }).getD mstateOpen.settings }).1.openPorts)) := by
  have hr : ReachableM mstateOpen :=
    ReachableM.step (some { Port := "COM3", BaudRate := 9600 }) true ReachableM.init
  exact ⟨hr, connection_manager_single_live mstateOpen hr 0
    (some { Port := "COM5", BaudRate := 19200 }) true⟩

/-- C4, counterexample: after opening COM3 successfully and then
reconnecting with the settings reset to empty, the old connection is
closed (nothing is open any more) yet the serialPort handle still
holds the stale reference — a reachable state where the handle is
neither open nor nil. -/
theorem stale_handle_reachable :
    ReachableM mstateStale ∧
    mstateStale.serialPort = some 0 ∧
    mstateStale.openPorts = [] := by
  refine ⟨?_, by decide, by decide⟩
  have h1 : ReachableM mstateOpen :=
    ReachableM.step (some { Port := "COM3", BaudRate := 9600 }) true ReachableM.init
  exact ReachableM.step (some { Port := "", BaudRate := 0 }) true h1

/-! Section 15: claims about the Outbound Writer (C5, C6). -/

/-- One writer iteration never mutates the connection handle or the
settings (the Go loop assigns neither global). -/
theorem writeToSerialStep_state (st : WState) (failure : Option String)
    (m : String) : (writeToSerialStep st failure m).1 = st := by
  cases hsp : st.serialPort with
  | none => simp [writeToSerialStep, hsp]
  | some c => rcases failure with _ | e <;> simp [writeToSerialStep, hsp]

/-- The writer loop never mutates the connection handle or the
settings. -/
theorem writeToSerialRun_state (failures : Nat → Option String) :
    ∀ (msgs : List String) (st : WState) (i : Nat),
      (writeToSerialRun failures st i msgs).1 = st := by
  intro msgs
  induction msgs with
  | nil => intro st i; rfl
  | cons m ms ih =>
    intro st i
    simp only [writeToSerialRun]
    rw [writeToSerialStep_state st (failures i) m]
    exact ih st (i + 1)

/-- C5: while no connection is open every consumed request produces
exactly one "not connected, message dropped" status, no write on the
physical transport is ever attempted, the whole queue is consumed with
nothing retained, and the handle and settings are untouched. -/
theorem writer_not_connected_drops (settings : SerialSettings)
    (failures : Nat → Option String) (i : Nat) (msgs : List String) :
    writeToSerialRun failures { serialPort := none, settings := settings } i msgs =
      ({ serialPort := none, settings := settings },
        msgs.map (fun _ => WEvent.status notOpenDropMsg)) ∧
    ∀ c p, WEvent.txAttempt c p ∉
      (writeToSerialRun failures { serialPort := none, settings := settings } i msgs).2 := by
  have hmain : ∀ (ms2 : List String) (j : Nat),
      writeToSerialRun failures { serialPort := none, settings := settings } j ms2 =
        ({ serialPort := none, settings := settings },
          ms2.map (fun _ => WEvent.status notOpenDropMsg)) := by
    intro ms2
    induction ms2 with
    | nil => intro j; rfl
    | cons m ms ih =>
      intro j
      have hstep : writeToSerialStep { serialPort := none, settings := settings }
          (failures j) m =
          ({ serialPort := none, settings := settings },
            [WEvent.status notOpenDropMsg]) := rfl
      simp only [writeToSerialRun, hstep, ih (j + 1), List.map_cons]
      rfl
  refine ⟨hmain msgs i, ?_⟩
  intro c p
  rw [hmain msgs i]
  simp only [List.mem_map]
  rintro ⟨m, _, hm⟩
  cases hm

/-- C6: when the transport write of one request fails, the writer
reports exactly one failure status carrying the underlying error text
for that request, after attempting the write; the connection handle and
settings are unchanged, and the remaining requests are processed
exactly as they would be on their own. -/
theorem writer_failure_isolated (st : WState) (c : Nat) (hc : st.serialPort = some c)
    (failures : Nat → Option String) (i : Nat) (e : String) (he : failures i = some e)
    (m : String) (ms : List String) :
    (writeToSerialRun failures st i (m :: ms)).2 =
      WEvent.txAttempt c m :: WEvent.status (writeFailText ++ e) ::
        (writeToSerialRun failures st (i + 1) ms).2 ∧
    (writeToSerialRun failures st i (m :: ms)).1 = st ∧
    (writeToSerialRun failures st (i + 1) ms).1 = st := by
  have hstep : writeToSerialStep st (failures i) m =
      (st, [WEvent.txAttempt c m, WEvent.status (writeFailText ++ e)]) := by
    simp [writeToSerialStep, hc, he]
  refine ⟨?_, writeToSerialRun_state failures (m :: ms) st i,
    writeToSerialRun_state failures ms st (i + 1)⟩
  simp only [writeToSerialRun, hstep]
  rfl

/-- C6, witness: a two-request queue whose first write fails with the
error text "device gone". -/
theorem writer_failure_isolated_witness :
    (({ serialPort := some 0, settings := { Port := "COM3", BaudRate := 9600 } } : WState).serialPort = some 0 ∧
      (fun _ : Nat => some ("device gone")) 0 = some ("device gone")) ∧
    ((writeToSerialRun (fun _ => some ("device gone")) { serialPort := some 0, settings := { Port := "COM3", BaudRate := 9600 } } 0 ["PING\n", "LED\n"]).2 =
        WEvent.txAttempt 0 ("PING\n") :: WEvent.status (writeFailText ++ "device gone") ::
          (writeToSerialRun (fun _ => some ("device gone")) { serialPort := some 0, settings := { Port := "COM3", BaudRate := 9600 } } 1 ["LED\n"]).2 ∧
      (writeToSerialRun (fun _ => some ("device gone")) { serialPort := some 0, settings := { Port := "COM3", BaudRate := 9600 } } 0 ["PING\n", "LED\n"]).1 =
        { serialPort := some 0, settings := { Port := "COM3", BaudRate := 9600 } } ∧
      (writeToSerialRun (fun _ => some ("device gone")) { serialPort := some 0, settings := { Port := "COM3", BaudRate := 9600 } } 1 ["LED\n"]).1 =
        { serialPort := some 0, settings := { Port := "COM3", BaudRate := 9600 } }) :=
  ⟨⟨rfl, rfl⟩,
    writer_failure_isolated
      { serialPort := some 0, settings := { Port := "COM3", BaudRate := 9600 } } 0 rfl
      (fun _ => some ("device gone")) 0 ("device gone") rfl ("PING\n") ["LED\n"]⟩

/-! Section 16: the port-monitoring loop (C10). -/

/-- C10, amended: on an iteration where the enumerated port list
differs from the previously observed one and the configured port is
absent from it, the loop resets the settings to the unconfigured value
and broadcasts the reset notice before reconnecting when the list
strictly shrank, and keeps the settings while still reconnecting when
the list did not shrink; when the enumerated list equals the previous
one, the iteration does nothing (no reconnect even if the configured
port is absent). -/
theorem manage_absent_port_behaviour (st : ManageState) (portList : List String)
    (hneq : equalPortLists portList st.lastPortList = false)
    (habs : stringInSlice st.settings.Port portList = false) :
    (portList.length < st.lastPortList.length →
      manageStep st portList =
        ({ settings := { Port := "", BaudRate := 0 }, lastPortList := portList },
          [PEvent.portListSent portList, PEvent.broadcast portResetMsg,
            PEvent.reconnect])) ∧
    (¬ portList.length < st.lastPortList.length →
      manageStep st portList =
        ({ st with lastPortList := portList },
          [PEvent.portListSent portList, PEvent.reconnect])) := by
  constructor
  · intro hlt
    simp [manageStep, hneq, habs, hlt]
  · intro hge
    simp [manageStep, hneq, habs, hge]

/-- C10, amended, witness: the configured COM7 disappears as the list
shrinks from [COM1, COM7] to [COM1]. -/
theorem manage_absent_port_behaviour_witness :
    (equalPortLists ["COM1"] ["COM1", "COM7"] = false ∧
      stringInSlice ("COM7") ["COM1"] = false) ∧
    (((["COM1"] : List String).length < (["COM1", "COM7"] : List String).length →
      manageStep { settings := { Port := "COM7", BaudRate := 9600 }, lastPortList := ["COM1", "COM7"] } ["COM1"] =
        ({ settings := { Port := "", BaudRate := 0 }, lastPortList := ["COM1"] },
          [PEvent.portListSent ["COM1"], PEvent.broadcast portResetMsg,
            PEvent.reconnect])) ∧
    (¬ (["COM1"] : List String).length < (["COM1", "COM7"] : List String).length →
      manageStep { settings := { Port := "COM7", BaudRate := 9600 }, lastPortList := ["COM1", "COM7"] } ["COM1"] =
        ({ settings := { Port := "COM7", BaudRate := 9600 }, lastPortList := ["COM1"] },
          [PEvent.portListSent ["COM1"], PEvent.reconnect]))) :=
  ⟨⟨by decide, by decide⟩,
    manage_absent_port_behaviour
      { settings := { Port := "COM7", BaudRate := 9600 }, lastPortList := ["COM1", "COM7"] }
      ["COM1"] (by decide) (by decide)⟩

/-- C10, counterexample: when the port list is unchanged between
iterations the loop does nothing at all, even though the configured
port is absent and the list did not shrink — no reconnect is
attempted, contradicting the claim that an absent port with a
non-shrinking list still reconnects. -/
theorem manage_no_reconnect_when_list_unchanged :
    stringInSlice ("COM9") ["COM1"] = false ∧
    ¬ (["COM1"] : List String).length < (["COM1"] : List String).length ∧
    manageStep { settings := { Port := "COM9", BaudRate := 9600 }, lastPortList := ["COM1"] } ["COM1"] =
      ({ settings := { Port := "COM9", BaudRate := 9600 }, lastPortList := ["COM1"] }, []) ∧
    PEvent.reconnect ∉
      (manageStep { settings := { Port := "COM9", BaudRate := 9600 }, lastPortList := ["COM1"] } ["COM1"]).2 := by
  exact ⟨by decide, by decide, by decide, by decide⟩

end SerialMonitor
